import Mathlib

/-!
Shallow embedding of TimezoneTranslator (TimezoneTranslator.h / TimezoneTranslator.cpp).

Unsigned 64-bit arithmetic is modelled on `Nat` with an explicit `% 2^64`
(`wrap64`) at every point where the C code mixes a signed offset into a
`uint64_t` value.  The `uint32_t` truncations of the source are kept as
explicit `% 2^32` where a large input could reach them.  `uint8_t` /
`uint16_t` quantities that the source keeps in range (months, days, hours,
years up to 2501) are plain `Nat`; signed quantities (`int8_t` week
selectors, `int16_t` offsets) are `Int`.  The two bounded `while` loops of
`getDstSwitchDay` are embedded with the iteration budget the source
guarantees for them (7 forward, days-in-month backward) as fuel, returning
`none` when the budget is exhausted, and the month loop of `toTimeStruct`
with its 12-month budget.  Fallible computations therefore return `Option`.
-/

namespace TZ

/-- 2^64, the modulus of `uint64_t` arithmetic. -/
def M64 : Nat := 18446744073709551616

/-- Reduce a signed 64-bit intermediate value to the `uint64_t` it stores. -/
def wrap64 (z : Int) : Nat := (z % (M64 : Int)).toNat

/-- struct TimezoneDefinition (TimezoneTranslator.h). -/
structure TimezoneDefinition where
  dst_start_month : Nat
  dst_start_week : Int
  dst_end_month : Nat
  dst_end_week : Int
  dst_weekday : Nat
  dst_start_hour : Nat
  dst_end_hour : Nat
  offset_min : Int
  offset_dst_min : Int
deriving DecidableEq, Repr

/-- struct DstCache (TimezoneTranslator.h). -/
structure DstCache where
  valid_from_ms : Nat
  valid_until_ms : Nat
  current_offset : Int
deriving DecidableEq, Repr

/-- struct TimeStruct (TimezoneTranslator.h). -/
structure TimeStruct where
  year : Nat
  month : Nat
  day : Nat
  hour : Nat
  minute : Nat
  second : Nat
  ms : Nat
  weekday : Nat
deriving DecidableEq, Repr

/-- The instance state of a TimezoneTranslator: its default rule and cache. -/
structure TranslatorState where
  tz : TimezoneDefinition
  cache : DstCache
deriving DecidableEq, Repr

/-- UNIX_OFFSET_2020: seconds from 1970-01-01 to 2020-01-01. -/
def UNIX_OFFSET_2020 : Nat := 1577836800

/-- TimezoneTranslator::normalize32. -/
def normalize32 (utcSec : Nat) : Nat :=
  if utcSec < UNIX_OFFSET_2020 then (utcSec + 4294967296) * 1000 else utcSec * 1000

/-- TimezoneTranslator::isLeapYear (source returns 1/0 as an int8_t flag). -/
def isLeapYear (year : Nat) : Bool :=
  if year % 400 = 0 then true
  else if year % 100 = 0 then false
  else if year % 4 = 0 then true
  else false

/-- The MONTH_DAYS table, 1-indexed: monthLen m = MONTH_DAYS[m-1]. -/
def monthLen : Nat → Nat
  | 1 => 31 | 2 => 28 | 3 => 31 | 4 => 30 | 5 => 31 | 6 => 30
  | 7 => 31 | 8 => 31 | 9 => 30 | 10 => 31 | 11 => 30 | 12 => 31
  | _ => 0

/-- TimezoneTranslator::getDaysInMonth. -/
def getDaysInMonth (month year : Nat) : Nat :=
  if month < 1 ∨ 12 < month then 0
  else if isLeapYear year ∧ month = 2 then 29
  else monthLen month

/-- TimezoneTranslator::getWeekdayFromDays: (days + 4) % 7, 0=Sunday. -/
def getWeekdayFromDays (daysSinceEpoch : Nat) : Nat :=
  (daysSinceEpoch + 4) % 7

/-- TimezoneTranslator::getWeekday (uint32_t cast of the day count kept). -/
def getWeekday (utcMs : Nat) : Nat :=
  getWeekdayFromDays (utcMs / 86400000 % 4294967296)

/-- The closed-form leap count (years+1)/4 - (years+69)/100 + (years+369)/400
used by dateToDays, toTimeStruct and yearFromDays.  The uint32_t subtraction
never borrows: (years+69)/100 <= (years+1)/4 for every years. -/
def leapsFor (years : Nat) : Nat :=
  (years + 1) / 4 - (years + 69) / 100 + (years + 369) / 400

/-- Days from the epoch to January 1 of `year` (the `years*365 + leaps`
prelude shared by dateToDays, toTimeStruct and yearFromDays). -/
def daysToYear (year : Nat) : Nat :=
  (year - 1970) * 365 + leapsFor (year - 1970)

/-- The month loop of TimezoneTranslator::dateToDays: days contributed by the
whole months before `month` in `year` (sum over m in [1, month)). -/
def monthDaysBefore (year : Nat) : Nat → Nat
  | 0 => 0
  | 1 => 0
  | m + 1 => monthDaysBefore year m + monthLen m + (if m = 2 ∧ isLeapYear year then 1 else 0)

/-- TimezoneTranslator::dateToDays. -/
def dateToDays (year month day : Nat) : Nat :=
  daysToYear year + monthDaysBefore year month + (day - 1)

/-- TimezoneTranslator::dateToMs. -/
def dateToMs (year month day hour minute second : Nat) : Nat :=
  dateToDays year month day * 86400000 + hour * 3600000 + minute * 60000 + second * 1000

/-- The binary-search loop of TimezoneTranslator::yearFromDays.  The source
loop runs until lo = hi; the interval [lo, hi) shrinks every iteration, so a
fuel of the initial width (530) is enough for the loop to converge. -/
def yearSearchF (days : Nat) : Nat → Nat → Nat → Nat
  | 0, lo, _ => lo
  | fuel + 1, lo, hi =>
    if lo < hi then
      let mid := lo + (hi - lo) / 2
      if daysToYear mid > days then yearSearchF days fuel lo mid
      else yearSearchF days fuel (mid + 1) hi
    else lo

/-- TimezoneTranslator::yearFromDays: binary search over 1971..2501. -/
def yearFromDays (days : Nat) : Nat :=
  yearSearchF days 530 1971 2501 - 1

/-- TimezoneTranslator::yearFromMs (the uint32_t cast of the day count kept). -/
def yearFromMs (utcMs : Nat) : Nat :=
  yearFromDays (utcMs / 86400000 % 4294967296)

/-- The month/day loop of TimezoneTranslator::toTimeStruct.  The source loop
increments month at most 11 times for any in-range day count; fuel 12 covers
that.  Arguments: fuel, month, daysRemaining. -/
def monthLoop (year : Nat) : Nat → Nat → Nat → Nat × Nat
  | 0, month, rem => (month, rem)
  | fuel + 1, month, rem =>
    if monthLen month ≤ rem then
      let daysInM := if month = 2 ∧ isLeapYear year then 29 else monthLen month
      if daysInM ≤ rem then monthLoop year fuel (month + 1) (rem - daysInM)
      else (month, rem)
    else (month, rem)

/-- TimezoneTranslator::toTimeStruct. -/
def toTimeStruct (utcMs : Nat) : TimeStruct :=
  let daysSinceEpoch := utcMs / 86400000 % 4294967296
  let remainderMs := (utcMs - daysSinceEpoch * 86400000) % 4294967296
  let remainderSec := remainderMs / 1000
  let year := yearFromDays daysSinceEpoch
  let daysRemaining := daysSinceEpoch - ((year - 1970) * 365 + leapsFor (year - 1970))
  let md := monthLoop year 12 1 daysRemaining
  { year := year
    month := md.1
    day := md.2 + 1
    hour := remainderSec / 3600
    minute := remainderSec / 60 % 60
    second := remainderSec % 60
    ms := remainderMs % 1000
    weekday := getWeekdayFromDays daysSinceEpoch }

/-- The forward scan of TimezoneTranslator::getDstSwitchDay:
while (wd != dst_weekday) { switchDay++; wd = (wd+1)%7; }.
Arguments: target weekday, fuel, switchDay, wd.  The source bounds this scan
by 7 iterations for an in-range weekday; `none` means the budget ran out. -/
def scanForward (target : Nat) : Nat → Nat → Nat → Option Nat
  | 0, _, _ => none
  | fuel + 1, switchDay, wd =>
    if wd = target then some switchDay
    else scanForward target fuel (switchDay + 1) ((wd + 1) % 7)

/-- The backward scan of TimezoneTranslator::getDstSwitchDay:
while (lastWeekday != dst_weekday) { switchDay--; lastWeekday = prev; }.
Arguments: target weekday, fuel, switchDay, lastWeekday.  The source bounds
this scan by days-in-month iterations for an in-range weekday. -/
def scanBackward (target : Nat) : Nat → Nat → Nat → Option Nat
  | 0, _, _ => none
  | fuel + 1, switchDay, lastWd =>
    if lastWd = target then some switchDay
    else scanBackward target fuel (switchDay - 1) (if lastWd = 0 then 6 else lastWd - 1)

/-- TimezoneTranslator::getDstSwitchDay.  switchDay is a uint8_t in the
source, so the advance to the nth occurrence (switchDay += 7*(targetWeek-1))
wraps mod 256; for the in-range week selectors 1..5 the wrap is a no-op.
Inside the scans switchDay stays within 1..31 for every result the fuel can
produce, so no other wrap is reachable. -/
def getDstSwitchDay (year month : Nat) (tz : TimezoneDefinition) (isStart : Bool) : Option Nat :=
  let targetWeek := if isStart then tz.dst_start_week else tz.dst_end_week
  let firstWeekday := getWeekdayFromDays (dateToDays year month 1)
  if 0 < targetWeek then
    (scanForward tz.dst_weekday 7 1 firstWeekday).map fun d =>
      (d + 7 * (targetWeek.toNat - 1)) % 256
  else
    let daysInM := getDaysInMonth month year
    scanBackward tz.dst_weekday daysInM daysInM ((firstWeekday + daysInM - 1) % 7)

/-- TimezoneTranslator::computeDstStartMs. -/
def computeDstStartMs (year : Nat) (tz : TimezoneDefinition) : Option Nat :=
  (getDstSwitchDay year tz.dst_start_month tz true).map fun startDay =>
    wrap64 ((dateToMs year tz.dst_start_month startDay tz.dst_start_hour 0 0 : Int)
      - tz.offset_min * 60000)

/-- TimezoneTranslator::computeDstEndMs. -/
def computeDstEndMs (year : Nat) (tz : TimezoneDefinition) : Option Nat :=
  (getDstSwitchDay year tz.dst_end_month tz false).map fun endDay =>
    wrap64 ((dateToMs year tz.dst_end_month endDay tz.dst_end_hour 0 0 : Int)
      - tz.offset_dst_min * 60000)

/-- The two-comparison cache test of getOffsetForUtc / getOffsetForLocal:
valid_from_ms <= ms and ms < valid_until_ms. -/
def hitCache (cache : DstCache) (ms : Nat) : Bool :=
  decide (cache.valid_from_ms ≤ ms) && decide (ms < cache.valid_until_ms)

/-- TimezoneTranslator::getOffsetForUtc.  Returns the offset together with
the cache as left by the call (the C function mutates its cache argument). -/
def getOffsetForUtc (utcMs : Nat) (tz : TimezoneDefinition) (cache : DstCache) :
    Option (Int × DstCache) :=
  if tz.dst_start_month = 0 then some (tz.offset_min, cache)
  else if hitCache cache utcMs then some (cache.current_offset, cache)
  else
    let year := yearFromMs utcMs
    match computeDstStartMs year tz, computeDstEndMs year tz with
    | some dstStartMs, some dstEndMs =>
      if dstStartMs < dstEndMs then
        if utcMs < dstStartMs then
          (computeDstEndMs (year - 1) tz).map fun p =>
            (tz.offset_min, ⟨p, dstStartMs, tz.offset_min⟩)
        else if utcMs < dstEndMs then
          some (tz.offset_dst_min, ⟨dstStartMs, dstEndMs, tz.offset_dst_min⟩)
        else
          (computeDstStartMs (year + 1) tz).map fun n =>
            (tz.offset_min, ⟨dstEndMs, n, tz.offset_min⟩)
      else
        if utcMs < dstEndMs then
          (computeDstStartMs (year - 1) tz).map fun p =>
            (tz.offset_dst_min, ⟨p, dstEndMs, tz.offset_dst_min⟩)
        else if utcMs < dstStartMs then
          some (tz.offset_min, ⟨dstEndMs, dstStartMs, tz.offset_min⟩)
        else
          (computeDstEndMs (year + 1) tz).map fun n =>
            (tz.offset_dst_min, ⟨dstStartMs, n, tz.offset_dst_min⟩)
    | _, _ => none

/-- TimezoneTranslator::getOffsetForLocal as defined in TimezoneTranslator.cpp
(the definition there takes no preferDst parameter, although the declaration
in TimezoneTranslator.h declares and documents one). -/
def getOffsetForLocal (localMs : Nat) (tz : TimezoneDefinition) (cache : DstCache) :
    Option (Int × DstCache) :=
  if tz.dst_start_month = 0 then some (tz.offset_min, cache)
  else
    let approxUtc := wrap64 ((localMs : Int) - tz.offset_min * 60000)
    if hitCache cache approxUtc then some (cache.current_offset, cache)
    else
      let year := yearFromMs approxUtc
      match computeDstStartMs year tz, computeDstEndMs year tz with
      | some dstStartMs, some dstEndMs =>
        let newCache :=
          if dstStartMs < dstEndMs then
            if approxUtc < dstStartMs then
              (computeDstEndMs (year - 1) tz).map fun p =>
                (⟨p, dstStartMs, tz.offset_min⟩ : DstCache)
            else if approxUtc < dstEndMs then
              some (⟨dstStartMs, dstEndMs, tz.offset_dst_min⟩ : DstCache)
            else
              (computeDstStartMs (year + 1) tz).map fun n =>
                (⟨dstEndMs, n, tz.offset_min⟩ : DstCache)
          else
            if approxUtc < dstEndMs then
              (computeDstStartMs (year - 1) tz).map fun p =>
                (⟨p, dstEndMs, tz.offset_dst_min⟩ : DstCache)
            else if approxUtc < dstStartMs then
              some (⟨dstEndMs, dstStartMs, tz.offset_min⟩ : DstCache)
            else
              (computeDstEndMs (year + 1) tz).map fun n =>
                (⟨dstStartMs, n, tz.offset_dst_min⟩ : DstCache)
        newCache.map fun c =>
          let dstStartLocal := wrap64 ((dstStartMs : Int) + tz.offset_min * 60000)
          let dstEndLocal := wrap64 ((dstEndMs : Int) + tz.offset_dst_min * 60000)
          if dstStartMs < dstEndMs then
            if dstStartLocal ≤ localMs ∧ localMs < dstEndLocal then (tz.offset_dst_min, c)
            else (tz.offset_min, c)
          else
            if dstStartLocal ≤ localMs ∨ localMs < dstEndLocal then (tz.offset_dst_min, c)
            else (tz.offset_min, c)
      | _, _ => none

/-- uint64_t TimezoneTranslator::utcToLocal(uint64_t, const TimezoneDefinition&):
the explicit-rule entry point with a throwaway cache. -/
def utcToLocal (utcMs : Nat) (tz : TimezoneDefinition) : Option Nat :=
  if tz.dst_start_month = 0 then some (wrap64 ((utcMs : Int) + tz.offset_min * 60000))
  else (getOffsetForUtc utcMs tz ⟨0, 0, 0⟩).map fun p => wrap64 ((utcMs : Int) + p.1 * 60000)

/-- uint64_t TimezoneTranslator::localToUtc(uint64_t, const TimezoneDefinition&)
as defined in TimezoneTranslator.cpp: the definition there takes no preferDst
parameter (the declaration in the header declares one with default true). -/
def localToUtc (localMs : Nat) (tz : TimezoneDefinition) : Option Nat :=
  if tz.dst_start_month = 0 then some (wrap64 ((localMs : Int) - tz.offset_min * 60000))
  else (getOffsetForLocal localMs tz ⟨0, 0, 0⟩).map fun p => wrap64 ((localMs : Int) - p.1 * 60000)

/-- The 32-bit-second overload utcToLocal(uint32_t, const TimezoneDefinition&). -/
def utcToLocalSec (utcSec : Nat) (tz : TimezoneDefinition) : Option Nat :=
  utcToLocal (normalize32 utcSec) tz

/-- The 32-bit-second overload localToUtc(uint32_t, const TimezoneDefinition&). -/
def localToUtcSec (localSec : Nat) (tz : TimezoneDefinition) : Option Nat :=
  localToUtc (normalize32 localSec) tz

/-- The cache value { 0, 0, 0 }. -/
def emptyCache : DstCache := ⟨0, 0, 0⟩

/-- The constructor state: UTC rule, empty cache. -/
def initialState : TranslatorState := ⟨⟨0, 0, 0, 0, 0, 0, 0, 0, 0⟩, emptyCache⟩

/-- TimezoneTranslator::setLocalTimezone acting on the instance state. -/
def setLocalTimezone (tz : TimezoneDefinition) (st : TranslatorState) :
    Bool × TranslatorState :=
  if 12 < tz.dst_start_month ∨ 12 < tz.dst_end_month then (false, st)
  else if tz.dst_start_month ≠ 0 ∧ tz.dst_end_month = 0 then (false, st)
  else (true, ⟨tz, emptyCache⟩)

/-- The US Eastern example rule of TimezoneTranslator.h: DST starts March,
2nd Sunday, 02:00 standard; ends November, 1st Sunday, 02:00 DST; offsets
-300 / -240 minutes. -/
def tdUsEastern : TimezoneDefinition := ⟨3, 2, 11, 1, 0, 2, 2, -300, -240⟩

/-- The Australia/Sydney example rule of TimezoneTranslator.h: DST starts
October, 1st Sunday; ends April, 1st Sunday; offsets +600 / +660 minutes. -/
def tdAest : TimezoneDefinition := ⟨10, 1, 4, 1, 0, 2, 3, 600, 660⟩

/-- A fixed-offset rule (India Standard Time style): no DST, +330 minutes. -/
def tdFixed330 : TimezoneDefinition := ⟨0, 0, 0, 0, 0, 0, 0, 330, 330⟩

/-- A rule whose dst_weekday field (7) matches no weekday value: the scans of
getDstSwitchDay never find it. -/
def tdWeekday7 : TimezoneDefinition := ⟨3, 1, 11, 1, 7, 2, 2, -300, -240⟩

/-- Like `tdWeekday7` but with a last-occurrence end selector, to exercise
the backward scan. -/
def tdWeekday7Last : TimezoneDefinition := ⟨3, 1, 11, 0, 7, 2, 2, -300, -240⟩

/-- A rule whose DST-end transition spills past the calendar year: DST ends
on the last Tuesday of December at 23:00 local DST with DST offset -240, so
the end transition of 2024 (December 31 23:00 local) is 2025-01-01T03:00 UTC. -/
def tdSpill : TimezoneDefinition := ⟨3, 2, 12, 0, 2, 2, 23, -300, -240⟩

/-- The rule invariant exactly as the spec words it (section 3): if start
month is 0, end month must be 0; if start month is non-zero, both months
must lie in 1..12 (so in particular end month is non-zero). -/
def specRuleInvariant (tz : TimezoneDefinition) : Prop :=
  (tz.dst_start_month = 0 → tz.dst_end_month = 0) ∧
  (tz.dst_start_month ≠ 0 →
    1 ≤ tz.dst_start_month ∧ tz.dst_start_month ≤ 12 ∧
    1 ≤ tz.dst_end_month ∧ tz.dst_end_month ≤ 12)

/-- The rule-acceptance condition that setLocalTimezone actually checks:
both months at most 12, and the start month may not be set without the end
month.  (A rule with start month 0 and a non-zero end month is accepted.) -/
def acceptedRule (tz : TimezoneDefinition) : Prop :=
  tz.dst_start_month ≤ 12 ∧ tz.dst_end_month ≤ 12 ∧
  (tz.dst_start_month = 0 ∨ tz.dst_end_month ≠ 0)

instance (tz : TimezoneDefinition) : Decidable (specRuleInvariant tz) := by
  unfold specRuleInvariant; infer_instance

instance (tz : TimezoneDefinition) : Decidable (acceptedRule tz) := by
  unfold acceptedRule; infer_instance

/-- Distance between two millisecond instants. -/
def distN (a b : Nat) : Nat := max a b - min a b

/-- The timestamp `t` is more than one hour away from both DST transition
instants that the rule produces for year `y`. -/
def marginsOk (t : Nat) (tz : TimezoneDefinition) (y : Nat) : Bool :=
  match computeDstStartMs y tz, computeDstEndMs y tz with
  | some s, some e => decide (3600000 < distN t s) && decide (3600000 < distN t e)
  | _, _ => false

/-- The timestamp `t` is more than one hour away from every DST transition
instant of the rule over the whole supported year range 1971..2500. -/
def allYearMarginsOk (t : Nat) (tz : TimezoneDefinition) : Bool :=
  (List.range' 1971 530).all (marginsOk t tz)

/-- In-range rule fields: months 1..12, weekday 0..6, hours 0..23, and
offsets representable in int16_t, as the header documents for each field. -/
def wellFormedRule (tz : TimezoneDefinition) : Prop :=
  1 ≤ tz.dst_start_month ∧ tz.dst_start_month ≤ 12 ∧
  1 ≤ tz.dst_end_month ∧ tz.dst_end_month ≤ 12 ∧
  tz.dst_weekday ≤ 6 ∧
  tz.dst_start_hour ≤ 23 ∧ tz.dst_end_hour ≤ 23 ∧
  tz.offset_min.natAbs ≤ 32767 ∧ tz.offset_dst_min.natAbs ≤ 32767

instance (tz : TimezoneDefinition) : Decidable (wellFormedRule tz) := by
  unfold wellFormedRule; infer_instance

end TZ

namespace TZ

/-- C6: for the US-Eastern-style rule, the computed DST-start transition for
2024 is 2024-03-10T07:00:00 UTC (the 02:00 local switch instant minus the
standard offset -300) and the DST-end transition is 2024-11-03T06:00:00 UTC
(the 02:00 local switch instant minus the DST offset -240). -/
theorem c6_us_transitions_2024 :
    computeDstStartMs 2024 tdUsEastern = some (dateToMs 2024 3 10 7 0 0) ∧
    computeDstEndMs 2024 tdUsEastern = some (dateToMs 2024 11 3 6 0 0) ∧
    dateToMs 2024 3 10 7 0 0 = 1710054000000 ∧
    dateToMs 2024 11 3 6 0 0 = 1730613600000 := by
  refine ⟨?_, ?_, ?_, ?_⟩ <;> decide

/-- C7: for the southern-hemisphere rule, the UTC offset resolver returns
+660 minutes at 2024-01-01T00:00:00 UTC and +600 minutes at
2024-07-01T00:00:00 UTC: the DST period spans the year boundary. -/
theorem c7_southern_offsets_2024 :
    (getOffsetForUtc 1704067200000 tdAest emptyCache).map Prod.fst = some 660 ∧
    (getOffsetForUtc 1719792000000 tdAest emptyCache).map Prod.fst = some 600 := by
  constructor <;> decide

/-- C9: the 32-bit extension used by the second-granularity overloads
returns (s + 2^32) * 1000 below the 2020-01-01 threshold 1577836800 and
s * 1000 at or above it; in particular at s = 1000000000 and s = 1700000000. -/
theorem c9_normalize32 :
    (∀ s : Nat, normalize32 s =
      if s < 1577836800 then (s + 4294967296) * 1000 else s * 1000) ∧
    normalize32 1000000000 = (1000000000 + 4294967296) * 1000 ∧
    normalize32 1700000000 = 1700000000 * 1000 := by
  refine ⟨fun s => rfl, by decide, by decide⟩

/-- C1 (code bug): the header declares and documents
localToUtc(localMs, tz, preferDst) where preferDst = false must select the
later UTC instant of the fall-back overlap, but the definition in
TimezoneTranslator.cpp has no preferDst parameter at all: inside the local
DST window it always returns the DST offset.  At the overlap local time
2024-11-03T01:30 (US Eastern rule) the one implemented conversion yields the
earlier instant 2024-11-03T05:30 UTC, and maps back into the overlap hour;
no call can produce the documented later instant 2024-11-03T06:30 UTC, so
localToUtc(t, rule, true) < localToUtc(t, rule, false) cannot hold. -/
theorem c1_preference_not_implemented :
    localToUtc (dateToMs 2024 11 3 1 30 0) tdUsEastern = some (dateToMs 2024 11 3 5 30 0) ∧
    utcToLocal (dateToMs 2024 11 3 5 30 0) tdUsEastern = some (dateToMs 2024 11 3 1 30 0) ∧
    dateToMs 2024 11 3 5 30 0 ≠ dateToMs 2024 11 3 6 30 0 := by
  refine ⟨?_, ?_, ?_⟩ <;> decide

/-- C2 (counterexample): a rule with start month 0 and end month 5 violates
the spec's rule invariant (start month 0 forces end month 0), yet
setLocalTimezone accepts it: success is not equivalent to the invariant. -/
theorem c2_counterexample :
    (setLocalTimezone ⟨0, 0, 5, 0, 0, 0, 0, 0, 0⟩ initialState).1 = true ∧
    ¬ specRuleInvariant ⟨0, 0, 5, 0, 0, 0, 0, 0, 0⟩ := by
  constructor <;> decide

/-- C2 (amended): setLocalTimezone succeeds iff both months are at most 12
and the start month is not set without the end month (a start month of 0
with any end month at most 12 is accepted); on failure the stored rule and
cache are exactly as before, and on success the rule is stored with the
cache cleared. -/
theorem c2_setLocalTimezone_amended (tz : TimezoneDefinition) (st : TranslatorState) :
    ((setLocalTimezone tz st).1 = true ↔ acceptedRule tz) ∧
    (setLocalTimezone tz st).2 =
      (if (setLocalTimezone tz st).1 then (⟨tz, emptyCache⟩ : TranslatorState) else st) := by
  unfold setLocalTimezone acceptedRule
  split
  · rename_i h
    exact ⟨by simp only [Bool.false_eq_true, false_iff]; omega, by simp⟩
  · split
    · rename_i h h2
      exact ⟨by simp only [Bool.false_eq_true, false_iff]; omega, by simp⟩
    · rename_i h h2
      exact ⟨by simp only [true_iff]; omega, by simp⟩

end TZ

namespace TZ

lemma scanForward_isSome_of_dist :
    ∀ (d fuel sd wd target : Nat), target < 7 → wd < 7 →
      (target + 7 - wd) % 7 = d → d < fuel →
      (scanForward target fuel sd wd).isSome = true := by
  intro d
  induction d with
  | zero =>
    intro fuel sd wd target ht hw hd hf
    have heq : wd = target := by omega
    cases fuel with
    | zero => omega
    | succ f => simp [scanForward, heq]
  | succ d ih =>
    intro fuel sd wd target ht hw hd hf
    have hne : wd ≠ target := by omega
    cases fuel with
    | zero => omega
    | succ f =>
      simp only [scanForward, if_neg hne]
      exact ih f (sd + 1) ((wd + 1) % 7) target ht (by omega) (by omega) (by omega)

lemma scanForward_isSome (target fuel sd wd : Nat) (ht : target ≤ 6) (hw : wd < 7)
    (hf : 7 ≤ fuel) : (scanForward target fuel sd wd).isSome = true :=
  scanForward_isSome_of_dist ((target + 7 - wd) % 7) fuel sd wd target (by omega) hw rfl
    (by omega)

lemma scanBackward_isSome_of_dist :
    ∀ (d fuel sd wd target : Nat), target < 7 → wd < 7 →
      (wd + 7 - target) % 7 = d → d < fuel →
      (scanBackward target fuel sd wd).isSome = true := by
  intro d
  induction d with
  | zero =>
    intro fuel sd wd target ht hw hd hf
    have heq : wd = target := by omega
    cases fuel with
    | zero => omega
    | succ f => simp [scanBackward, heq]
  | succ d ih =>
    intro fuel sd wd target ht hw hd hf
    have hne : wd ≠ target := by omega
    cases fuel with
    | zero => omega
    | succ f =>
      simp only [scanBackward, if_neg hne]
      refine ih f (sd - 1) (if wd = 0 then 6 else wd - 1) target ht ?_ ?_ (by omega)
      · by_cases h0 : wd = 0 <;> simp only [h0, if_pos, if_neg, if_true, if_false] <;> omega
      · by_cases h0 : wd = 0
        · simp only [h0, if_true]
          omega
        · rw [if_neg h0]
          omega

lemma scanBackward_isSome (target fuel sd wd : Nat) (ht : target ≤ 6) (hw : wd < 7)
    (hf : 7 ≤ fuel) : (scanBackward target fuel sd wd).isSome = true :=
  scanBackward_isSome_of_dist ((wd + 7 - target) % 7) fuel sd wd target (by omega) hw rfl
    (by omega)

lemma getDaysInMonth_ge (m y : Nat) (h1 : 1 ≤ m) (h2 : m ≤ 12) :
    28 ≤ getDaysInMonth m y := by
  unfold getDaysInMonth
  interval_cases m <;> split_ifs <;> simp_all [monthLen]

lemma getWeekdayFromDays_lt (d : Nat) : getWeekdayFromDays d < 7 := by
  unfold getWeekdayFromDays; omega

/-- C3 (counterexample): the claim allows an arbitrary weekday field, but for
dst_weekday = 7 (a representable uint8_t value matching no weekday) neither
scan ever finds its target: with the claimed iteration budgets (7 forward,
days-in-month backward) getDstSwitchDay does not complete for month 3 /
month 11 of 2024, refuting the claim at these concrete inputs. -/
theorem c3_counterexample :
    getDstSwitchDay 2024 3 tdWeekday7 true = none ∧
    getDstSwitchDay 2024 11 tdWeekday7Last false = none := by
  constructor <;> decide

lemma getDstSwitchDay_isSome (year month : Nat) (tz : TimezoneDefinition)
    (isStart : Bool) (h1 : 1 ≤ month) (h2 : month ≤ 12) (hw : tz.dst_weekday ≤ 6) :
    (getDstSwitchDay year month tz isStart).isSome = true := by
  have h28 : 28 ≤ getDaysInMonth month year := getDaysInMonth_ge month year h1 h2
  unfold getDstSwitchDay
  dsimp only
  split <;> split
  all_goals
    first
      | (rw [Option.isSome_map']
         exact scanForward_isSome _ _ _ _ hw (getWeekdayFromDays_lt _) (by omega))
      | (exact scanBackward_isSome _ _ _ _ hw (by omega) (by omega))

/-- C3 (amended): for every year, every month in 1..12, and every rule whose
weekday field is an actual weekday (0..6), getDstSwitchDay terminates, the
forward scan finding the target within 7 iterations and the backward scan
within days-in-month iterations (those budgets are the fuel of the embedded
scans). -/
theorem c3_switchday_terminates_amended (year month : Nat) (tz : TimezoneDefinition)
    (isStart : Bool) (h1 : 1 ≤ month) (h2 : month ≤ 12) (hw : tz.dst_weekday ≤ 6) :
    (getDstSwitchDay year month tz isStart).isSome = true :=
  getDstSwitchDay_isSome year month tz isStart h1 h2 hw

/-- C3 (witness): the amended theorem applied to the US Eastern rule, March
2024, start boundary. -/
theorem c3_switchday_terminates_witness :
    1 ≤ 3 ∧ 3 ≤ 12 ∧ tdUsEastern.dst_weekday ≤ 6 ∧
    (getDstSwitchDay 2024 3 tdUsEastern true).isSome = true :=
  ⟨by decide, by decide, by decide,
    c3_switchday_terminates_amended 2024 3 tdUsEastern true (by decide) (by decide) (by decide)⟩

end TZ

namespace TZ

/-- C8: for a rule with no DST (start month 0) and offset O, utcToLocal is
the uint64_t value of t + O*60000, localToUtc the uint64_t value of
t - O*60000, and the two are exact inverses on every 64-bit timestamp. -/
theorem c8_fixed_offset (t : Nat) (tz : TimezoneDefinition) (ht : t < M64)
    (hm : tz.dst_start_month = 0) :
    utcToLocal t tz = some (wrap64 ((t : Int) + tz.offset_min * 60000)) ∧
    localToUtc t tz = some (wrap64 ((t : Int) - tz.offset_min * 60000)) ∧
    (utcToLocal t tz).bind (fun l => localToUtc l tz) = some t := by
  have h1 : utcToLocal t tz = some (wrap64 ((t : Int) + tz.offset_min * 60000)) := by
    unfold utcToLocal; rw [if_pos hm]
  have h2 : ∀ l : Nat, localToUtc l tz = some (wrap64 ((l : Int) - tz.offset_min * 60000)) := by
    intro l; unfold localToUtc; rw [if_pos hm]
  refine ⟨h1, h2 t, ?_⟩
  rw [h1, Option.some_bind, h2]
  congr 1
  unfold wrap64
  simp only [M64]
  push_cast
  unfold M64 at ht
  have hnn : (0 : Int) ≤ ((t : Int) + tz.offset_min * 60000) % 18446744073709551616 :=
    Int.emod_nonneg _ (by norm_num)
  rw [Int.toNat_of_nonneg hnn, Int.sub_emod, Int.emod_emod_of_dvd _ dvd_rfl, ← Int.sub_emod]
  have hz : (t : Int) + tz.offset_min * 60000 - tz.offset_min * 60000 = (t : Int) := by ring
  rw [hz, Int.emod_eq_of_lt (by positivity) (by exact_mod_cast ht), Int.toNat_natCast]

/-- C8 (witness): the fixed +330 rule at t = 5. -/
theorem c8_fixed_offset_witness :
    (5 : Nat) < M64 ∧ tdFixed330.dst_start_month = 0 ∧
    (utcToLocal 5 tdFixed330).bind (fun l => localToUtc l tdFixed330) = some 5 :=
  ⟨by decide, by decide, (c8_fixed_offset 5 tdFixed330 (by decide) (by decide)).2.2⟩

end TZ

namespace TZ

/-- C5: after a cache-miss lookup in getOffsetForUtc returns offset X and
leaves cache interval [a, b), every call with the same rule and a timestamp
in [a, b) passes the two-comparison hit test and returns exactly X with the
cache unchanged, while a call at exactly b fails the hit test (b < b is
false) and goes to the recomputation path. -/
theorem c5_cache_soundness (tz : TimezoneDefinition) (t : Nat) (X : Int)
    (c0 c1 : DstCache) (hm : tz.dst_start_month ≠ 0)
    (hmiss : hitCache c0 t = false)
    (h : getOffsetForUtc t tz c0 = some (X, c1)) :
    c1.current_offset = X ∧
    (∀ u : Nat, c1.valid_from_ms ≤ u → u < c1.valid_until_ms →
      hitCache c1 u = true ∧ getOffsetForUtc u tz c1 = some (X, c1)) ∧
    hitCache c1 c1.valid_until_ms = false := by
  have hXc : c1.current_offset = X := by
    unfold getOffsetForUtc at h
    rw [if_neg hm] at h
    rw [hmiss] at h
    simp only [Bool.false_eq_true, if_false] at h
    cases hS : computeDstStartMs (yearFromMs t) tz with
    | none => rw [hS] at h; simp at h
    | some S =>
      cases hE : computeDstEndMs (yearFromMs t) tz with
      | none => rw [hS, hE] at h; simp at h
      | some E =>
        rw [hS, hE] at h
        dsimp only at h
        split at h
        · split at h
          · rw [Option.map_eq_some'] at h
            obtain ⟨p, hp, hpe⟩ := h
            injection hpe with hA hB
            subst hB; exact hA.symm ▸ rfl
          · split at h
            · injection h with h'
              injection h' with hA hB
              subst hB; exact hA.symm ▸ rfl
            · rw [Option.map_eq_some'] at h
              obtain ⟨p, hp, hpe⟩ := h
              injection hpe with hA hB
              subst hB; exact hA.symm ▸ rfl
        · split at h
          · rw [Option.map_eq_some'] at h
            obtain ⟨p, hp, hpe⟩ := h
            injection hpe with hA hB
            subst hB; exact hA.symm ▸ rfl
          · split at h
            · injection h with h'
              injection h' with hA hB
              subst hB; exact hA.symm ▸ rfl
            · rw [Option.map_eq_some'] at h
              obtain ⟨p, hp, hpe⟩ := h
              injection hpe with hA hB
              subst hB; exact hA.symm ▸ rfl
  refine ⟨hXc, ?_, ?_⟩
  · intro u h1 h2
    have hh : hitCache c1 u = true := by
      unfold hitCache
      simp [h1, h2]
    refine ⟨hh, ?_⟩
    unfold getOffsetForUtc
    rw [if_neg hm, hh]
    simp [hXc]
  · unfold hitCache
    simp

end TZ

namespace TZ

/-- C5 (witness): a cold lookup at 2024-06-01T00:00Z with the US Eastern rule
sets the summer cache [2024-03-10T07:00Z, 2024-11-03T06:00Z) at offset -240,
and a second lookup inside that interval hits and returns the same pair. -/
theorem c5_cache_soundness_witness :
    tdUsEastern.dst_start_month ≠ 0 ∧
    hitCache emptyCache 1717200000000 = false ∧
    getOffsetForUtc 1717200000000 tdUsEastern emptyCache =
      some (-240, ⟨1710054000000, 1730613600000, -240⟩) ∧
    getOffsetForUtc 1720000000000 tdUsEastern ⟨1710054000000, 1730613600000, -240⟩ =
      some (-240, ⟨1710054000000, 1730613600000, -240⟩) :=
  ⟨by decide, by decide, by decide,
    ((c5_cache_soundness tdUsEastern 1717200000000 (-240) emptyCache
        ⟨1710054000000, 1730613600000, -240⟩ (by decide) (by decide) (by decide)).2.1
      1720000000000 (by decide) (by decide)).2⟩

end TZ

namespace TZ

lemma leapsFor_le_succ (k : Nat) : leapsFor k ≤ leapsFor (k + 1) := by
  unfold leapsFor
  omega

lemma leapsFor_le (m n : Nat) (h : m ≤ n) : leapsFor m ≤ leapsFor n := by
  induction n with
  | zero =>
    have : m = 0 := by omega
    subst this; exact le_rfl
  | succ n ih =>
    rcases Nat.lt_or_ge m (n + 1) with h1 | h1
    · exact le_trans (ih (by omega)) (leapsFor_le_succ n)
    · have : m = n + 1 := by omega
      subst this; exact le_rfl

lemma leapsFor_succ_eq (k : Nat) :
    leapsFor (k + 1) = leapsFor k + (if isLeapYear (1970 + k) then 1 else 0) := by
  have hba : (k + 69) / 100 ≤ (k + 1) / 4 := by omega
  by_cases c400 : (1970 + k) % 400 = 0
  · have e4 : (k + 1 + 1) / 4 = (k + 1) / 4 + 1 := by omega
    have e100 : (k + 1 + 69) / 100 = (k + 69) / 100 + 1 := by omega
    have e400 : (k + 1 + 369) / 400 = (k + 369) / 400 + 1 := by omega
    have hleap : isLeapYear (1970 + k) = true := by
      unfold isLeapYear; rw [if_pos c400]
    unfold leapsFor
    rw [hleap, e4, e100, e400]
    simp only [if_true]
    omega
  · by_cases c100 : (1970 + k) % 100 = 0
    · have e4 : (k + 1 + 1) / 4 = (k + 1) / 4 + 1 := by omega
      have e100 : (k + 1 + 69) / 100 = (k + 69) / 100 + 1 := by omega
      have e400 : (k + 1 + 369) / 400 = (k + 369) / 400 := by omega
      have hleap : isLeapYear (1970 + k) = false := by
        unfold isLeapYear; rw [if_neg c400, if_pos c100]
      unfold leapsFor
      rw [hleap, e4, e100, e400]
      simp only [Bool.false_eq_true, if_false]
      omega
    · by_cases c4 : (1970 + k) % 4 = 0
      · have e4 : (k + 1 + 1) / 4 = (k + 1) / 4 + 1 := by omega
        have e100 : (k + 1 + 69) / 100 = (k + 69) / 100 := by omega
        have e400 : (k + 1 + 369) / 400 = (k + 369) / 400 := by omega
        have hleap : isLeapYear (1970 + k) = true := by
          unfold isLeapYear; rw [if_neg c400, if_neg c100, if_pos c4]
        unfold leapsFor
        rw [hleap, e4, e100, e400]
        simp only [if_true]
        omega
      · have e4 : (k + 1 + 1) / 4 = (k + 1) / 4 := by omega
        have e100 : (k + 1 + 69) / 100 = (k + 69) / 100 := by omega
        have e400 : (k + 1 + 369) / 400 = (k + 369) / 400 := by omega
        have hleap : isLeapYear (1970 + k) = false := by
          unfold isLeapYear; rw [if_neg c400, if_neg c100, if_neg c4]
        unfold leapsFor
        rw [hleap, e4, e100, e400]
        simp only [Bool.false_eq_true, if_false]
        omega

lemma daysToYear_mono (a b : Nat) (h : a ≤ b) : daysToYear a ≤ daysToYear b := by
  unfold daysToYear
  have h1 : a - 1970 ≤ b - 1970 := by omega
  have h2 := leapsFor_le (a - 1970) (b - 1970) h1
  have h3 : (a - 1970) * 365 ≤ (b - 1970) * 365 := by
    exact Nat.mul_le_mul_right 365 h1
  omega

lemma daysToYear_succ_eq (y : Nat) (hy : 1970 ≤ y) :
    daysToYear (y + 1) = daysToYear y + 365 + (if isLeapYear y then 1 else 0) := by
  unfold daysToYear
  have h1 : y + 1 - 1970 = (y - 1970) + 1 := by omega
  rw [h1, leapsFor_succ_eq]
  have h2 : 1970 + (y - 1970) = y := by omega
  rw [h2]
  have h3 : (y - 1970 + 1) * 365 = (y - 1970) * 365 + 365 := by ring
  omega

lemma daysToYear_add_365 (y : Nat) (hy : 1970 ≤ y) :
    daysToYear y + 365 ≤ daysToYear (y + 1) := by
  rw [daysToYear_succ_eq y hy]
  split_ifs <;> omega

lemma daysToYear_strict (a b : Nat) (ha : 1970 ≤ a) (h : a < b) :
    daysToYear a + 365 ≤ daysToYear b :=
  le_trans (daysToYear_add_365 a ha) (daysToYear_mono (a + 1) b (by omega))

lemma yearSearchF_spec :
    ∀ (fuel days lo hi : Nat), lo ≤ hi → hi - lo ≤ fuel → 1971 ≤ lo → hi ≤ 2501 →
      daysToYear (lo - 1) ≤ days → (days < daysToYear hi ∨ hi = 2501) →
      lo ≤ yearSearchF days fuel lo hi ∧ yearSearchF days fuel lo hi ≤ hi ∧
      daysToYear (yearSearchF days fuel lo hi - 1) ≤ days ∧
      (days < daysToYear (yearSearchF days fuel lo hi) ∨ yearSearchF days fuel lo hi = 2501) := by
  intro fuel
  induction fuel with
  | zero =>
    intro days lo hi h1 h2 h3 h4 h5 h6
    have : lo = hi := by omega
    subst this
    simp only [yearSearchF]
    exact ⟨le_rfl, le_rfl, h5, h6⟩
  | succ f ih =>
    intro days lo hi h1 h2 h3 h4 h5 h6
    by_cases hlh : lo < hi
    · simp only [yearSearchF]
      rw [if_pos hlh]
      by_cases hmid : daysToYear (lo + (hi - lo) / 2) > days
      · rw [if_pos hmid]
        have := ih days lo (lo + (hi - lo) / 2) (by omega) (by omega) h3 (by omega) h5
          (Or.inl hmid)
        omega
      · rw [if_neg hmid]
        have hle : daysToYear (lo + (hi - lo) / 2 + 1 - 1) ≤ days := by
          have : lo + (hi - lo) / 2 + 1 - 1 = lo + (hi - lo) / 2 := by omega
          rw [this]; omega
        have := ih days (lo + (hi - lo) / 2 + 1) hi (by omega) (by omega) (by omega) h4
          hle h6
        omega
    · simp only [yearSearchF]
      rw [if_neg hlh]
      have : lo = hi := by omega
      subst this
      exact ⟨le_rfl, le_rfl, h5, h6⟩

lemma yearFromDays_bounds (days : Nat) :
    1970 ≤ yearFromDays days ∧ yearFromDays days ≤ 2500 ∧
    daysToYear (yearFromDays days) ≤ days ∧
    (days < daysToYear (yearFromDays days + 1) ∨ yearFromDays days = 2500) := by
  have h0 : daysToYear (1971 - 1) ≤ days := by
    have e : (1971 - 1 : Nat) = 1970 := by norm_num
    rw [e]
    have : daysToYear 1970 = 0 := by decide
    omega
  have h := yearSearchF_spec 530 days 1971 2501 (by omega) (by omega) (by omega) (by omega)
    h0 (Or.inr rfl)
  unfold yearFromDays
  obtain ⟨a1, a2, a3, a4⟩ := h
  refine ⟨by omega, by omega, a3, ?_⟩
  have he : yearSearchF days 530 1971 2501 - 1 + 1 = yearSearchF days 530 1971 2501 := by
    omega
  rw [he]
  omega

lemma yearFromDays_eq (y days : Nat) (h1 : 1970 ≤ y) (h2 : y ≤ 2500)
    (h3 : daysToYear y ≤ days) (h4 : days < daysToYear (y + 1)) :
    yearFromDays days = y := by
  obtain ⟨b1, b2, b3, b4⟩ := yearFromDays_bounds days
  rcases Nat.lt_trichotomy (yearFromDays days) y with hlt | heq | hgt
  · exfalso
    have hm : daysToYear (yearFromDays days + 1) ≤ daysToYear y :=
      daysToYear_mono _ _ (by omega)
    rcases b4 with b4 | b4
    · omega
    · omega
  · exact heq
  · exfalso
    have hm : daysToYear (y + 1) ≤ daysToYear (yearFromDays days) :=
      daysToYear_mono _ _ (by omega)
    omega

lemma yearFromMs_eq (y v : Nat) (h1 : 1970 ≤ y) (h2 : y ≤ 2500)
    (hlo : daysToYear y * 86400000 ≤ v) (hhi : v < daysToYear (y + 1) * 86400000)
    (hcap : daysToYear (y + 1) ≤ 4294967296) :
    yearFromMs v = y := by
  unfold yearFromMs
  have hd1 : daysToYear y ≤ v / 86400000 :=
    (Nat.le_div_iff_mul_le (by norm_num)).mpr hlo
  have hd2 : v / 86400000 < daysToYear (y + 1) := by
    by_contra hc
    push_neg at hc
    have := Nat.mul_le_mul_right 86400000 hc
    have h3 := Nat.div_mul_le_self v 86400000
    omega
  have hmod : v / 86400000 % 4294967296 = v / 86400000 := by
    apply Nat.mod_eq_of_lt
    omega
  rw [hmod]
  exact yearFromDays_eq y _ h1 h2 hd1 hd2

end TZ

namespace TZ

lemma monthDaysBefore_succ (y m : Nat) (h : 1 ≤ m) :
    monthDaysBefore y (m + 1) =
      monthDaysBefore y m + (if m = 2 ∧ isLeapYear y then 29 else monthLen m) := by
  cases m with
  | zero => omega
  | succ m' =>
    simp only [monthDaysBefore]
    by_cases h2 : m' + 1 = 2 ∧ isLeapYear y = true
    · rw [if_pos h2, if_pos h2]
      obtain ⟨hm2, _⟩ := h2
      rw [hm2]
      norm_num [monthLen]
    · rw [if_neg h2, if_neg h2]
      omega

lemma monthDaysBefore_mono (y : Nat) :
    ∀ j m : Nat, 1 ≤ j → j ≤ m → monthDaysBefore y j ≤ monthDaysBefore y m := by
  intro j m hj hjm
  induction m with
  | zero => omega
  | succ m' ih =>
    rcases Nat.lt_or_ge j (m' + 1) with h1 | h1
    · have hm1 : 1 ≤ m' := by omega
      calc monthDaysBefore y j ≤ monthDaysBefore y m' := ih (by omega)
        _ ≤ monthDaysBefore y (m' + 1) := by rw [monthDaysBefore_succ y m' hm1]; omega
    · have : j = m' + 1 := by omega
      subst this; exact le_rfl

lemma monthDaysBefore_13 (y : Nat) :
    monthDaysBefore y 13 = 365 + (if isLeapYear y then 1 else 0) := by
  cases hL : isLeapYear y <;> simp [monthDaysBefore, monthLen, hL]

lemma getDaysInMonth_eq_dim (m y : Nat) (h1 : 1 ≤ m) (h2 : m ≤ 12) :
    getDaysInMonth m y = if m = 2 ∧ isLeapYear y then 29 else monthLen m := by
  unfold getDaysInMonth
  rw [if_neg (by omega)]
  by_cases h : m = 2 ∧ isLeapYear y = true
  · rw [if_pos ⟨h.2, h.1⟩, if_pos h]
  · have h' : ¬(isLeapYear y = true ∧ m = 2) := fun hc => h ⟨hc.2, hc.1⟩
    rw [if_neg h', if_neg h]

lemma monthLen_le_dim (y j : Nat) :
    monthLen j ≤ if j = 2 ∧ isLeapYear y then 29 else monthLen j := by
  by_cases hc : j = 2 ∧ isLeapYear y = true
  · rw [if_pos hc, hc.1]
    norm_num [monthLen]
  · rw [if_neg hc]

lemma monthLoop_inv (y : Nat) :
    ∀ (fuel j m d : Nat), 1 ≤ j → j ≤ m → m ≤ 12 → m - j ≤ fuel →
      1 ≤ d → d ≤ (if m = 2 ∧ isLeapYear y then 29 else monthLen m) →
      monthLoop y fuel j (monthDaysBefore y m - monthDaysBefore y j + (d - 1)) =
        (m, d - 1) := by
  intro fuel
  induction fuel with
  | zero =>
    intro j m d hj hjm hm12 hfuel hd1 hd2
    have : j = m := by omega
    subst this
    have he : monthDaysBefore y j - monthDaysBefore y j + (d - 1) = d - 1 := by omega
    rw [he]
    simp only [monthLoop]
  | succ f ih =>
    intro j m d hj hjm hm12 hfuel hd1 hd2
    by_cases hjm' : j = m
    · subst hjm'
      have he : monthDaysBefore y j - monthDaysBefore y j + (d - 1) = d - 1 := by omega
      rw [he]
      simp only [monthLoop]
      by_cases hL1 : monthLen j ≤ d - 1
      · rw [if_pos hL1]
        have hlt : ¬((if j = 2 ∧ isLeapYear y then 29 else monthLen j) ≤ d - 1) := by
          omega
        rw [if_neg hlt]
      · rw [if_neg hL1]
    · have hltm : j < m := by omega
      have hm1j : 1 ≤ j := hj
      have hsucc := monthDaysBefore_succ y j hm1j
      have hmono := monthDaysBefore_mono y (j + 1) m (by omega) (by omega)
      have hml := monthLen_le_dim y j
      simp only [monthLoop]
      rw [if_pos (by omega)]
      rw [if_pos (by omega)]
      have harg : monthDaysBefore y m - monthDaysBefore y j + (d - 1) -
          (if j = 2 ∧ isLeapYear y then 29 else monthLen j) =
          monthDaysBefore y m - monthDaysBefore y (j + 1) + (d - 1) := by
        omega
      rw [harg]
      exact ih (j + 1) m d (by omega) (by omega) hm12 (by omega) hd1 hd2

end TZ

namespace TZ

lemma dateToDays_bounds (y m d : Nat) (hy : 1970 ≤ y) (h1 : 1 ≤ m) (h2 : m ≤ 12)
    (h3 : 1 ≤ d) (h4 : d ≤ getDaysInMonth m y) :
    daysToYear y ≤ dateToDays y m d ∧ dateToDays y m d < daysToYear (y + 1) := by
  have hdim := getDaysInMonth_eq_dim m y h1 h2
  have hsucc := monthDaysBefore_succ y m h1
  have hmono := monthDaysBefore_mono y (m + 1) 13 (by omega) (by omega)
  have h13 := monthDaysBefore_13 y
  have hys := daysToYear_succ_eq y hy
  unfold dateToDays
  omega

/-- C10: composing a valid calendar date-time (year 1970..2500) with dateToMs
and decomposing with toTimeStruct returns exactly the same fields, with ms 0
and weekday (daysSinceEpoch + 4) mod 7. -/
theorem c10_datetime_roundtrip (y m d hr mi s : Nat)
    (hy1 : 1970 ≤ y) (hy2 : y ≤ 2500) (hm1 : 1 ≤ m) (hm2 : m ≤ 12)
    (hd1 : 1 ≤ d) (hd2 : d ≤ getDaysInMonth m y)
    (hh : hr ≤ 23) (hmi : mi ≤ 59) (hs : s ≤ 59) :
    toTimeStruct (dateToMs y m d hr mi s) =
      ⟨y, m, d, hr, mi, s, 0, (dateToDays y m d + 4) % 7⟩ := by
  obtain ⟨hb1, hb2⟩ := dateToDays_bounds y m d hy1 hm1 hm2 hd1 hd2
  have hcap : daysToYear (y + 1) ≤ 193944 := by
    have hc1 := daysToYear_mono (y + 1) 2501 (by omega)
    have hc2 : daysToYear 2501 = 193944 := by decide
    omega
  have hDlt : dateToDays y m d < 4294967296 := by omega
  have hdays : dateToMs y m d hr mi s / 86400000 % 4294967296 = dateToDays y m d := by
    unfold dateToMs
    omega
  have hrem : (dateToMs y m d hr mi s - dateToDays y m d * 86400000) % 4294967296 =
      hr * 3600000 + mi * 60000 + s * 1000 := by
    unfold dateToMs
    omega
  have hyear : yearFromDays (dateToDays y m d) = y := yearFromDays_eq y _ hy1 hy2 hb1 hb2
  have hdaysRem : dateToDays y m d - ((y - 1970) * 365 + leapsFor (y - 1970)) =
      monthDaysBefore y m + (d - 1) := by
    unfold dateToDays daysToYear
    omega
  have hloop : monthLoop y 12 1 (monthDaysBefore y m + (d - 1)) = (m, d - 1) := by
    have hd2' : d ≤ (if m = 2 ∧ isLeapYear y then 29 else monthLen m) := by
      rw [← getDaysInMonth_eq_dim m y hm1 hm2]; exact hd2
    have h := monthLoop_inv y 12 1 m d (by omega) hm1 hm2 (by omega) hd1 hd2'
    simpa [monthDaysBefore] using h
  simp only [toTimeStruct]
  rw [hdays, hrem, hyear, hdaysRem, hloop]
  have e1 : d - 1 + 1 = d := by omega
  have e2 : (hr * 3600000 + mi * 60000 + s * 1000) / 1000 / 3600 = hr := by omega
  have e3 : (hr * 3600000 + mi * 60000 + s * 1000) / 1000 / 60 % 60 = mi := by omega
  have e4 : (hr * 3600000 + mi * 60000 + s * 1000) / 1000 % 60 = s := by omega
  have e5 : (hr * 3600000 + mi * 60000 + s * 1000) % 1000 = 0 := by omega
  simp only [getWeekdayFromDays, e1, e2, e3, e4, e5]

/-- C10 (witness): the round trip at 2024-02-29 23:59:59. -/
theorem c10_datetime_roundtrip_witness :
    1970 ≤ 2024 ∧ 29 ≤ getDaysInMonth 2 2024 ∧
    toTimeStruct (dateToMs 2024 2 29 23 59 59) =
      ⟨2024, 2, 29, 23, 59, 59, 0, (dateToDays 2024 2 29 + 4) % 7⟩ :=
  ⟨by decide, by decide,
    c10_datetime_roundtrip 2024 2 29 23 59 59 (by decide) (by decide) (by decide)
      (by decide) (by decide) (by decide) (by decide) (by decide) (by decide)⟩

end TZ

namespace TZ

end TZ

namespace TZ

lemma wrap64_coe (z : Int) (h0 : 0 ≤ z) (h1 : z < 18446744073709551616) :
    ((wrap64 z : Nat) : Int) = z := by
  unfold wrap64
  have hM : ((M64 : Nat) : Int) = 18446744073709551616 := by norm_num [M64]
  rw [hM, Int.emod_eq_of_lt h0 h1, Int.toNat_of_nonneg h0]

lemma wrap64_natCast (n : Nat) (h : n < 18446744073709551616) : wrap64 (n : Int) = n := by
  have h2 := wrap64_coe (n : Int) (by positivity) (by exact_mod_cast h)
  exact_mod_cast h2

lemma hitCache_empty (x : Nat) : hitCache ⟨0, 0, 0⟩ x = false := by
  unfold hitCache
  simp

lemma computeDstStartMs_exists (y : Nat) (tz : TimezoneDefinition)
    (h1 : 1 ≤ tz.dst_start_month) (h2 : tz.dst_start_month ≤ 12)
    (hw : tz.dst_weekday ≤ 6) : ∃ v, computeDstStartMs y tz = some v := by
  have h := getDstSwitchDay_isSome y tz.dst_start_month tz true h1 h2 hw
  rw [Option.isSome_iff_exists] at h
  obtain ⟨d, hd⟩ := h
  exact ⟨_, by unfold computeDstStartMs; rw [hd]; rfl⟩

lemma computeDstEndMs_exists (y : Nat) (tz : TimezoneDefinition)
    (h1 : 1 ≤ tz.dst_end_month) (h2 : tz.dst_end_month ≤ 12)
    (hw : tz.dst_weekday ≤ 6) : ∃ v, computeDstEndMs y tz = some v := by
  have h := getDstSwitchDay_isSome y tz.dst_end_month tz false h1 h2 hw
  rw [Option.isSome_iff_exists] at h
  obtain ⟨d, hd⟩ := h
  exact ⟨_, by unfold computeDstEndMs; rw [hd]; rfl⟩

lemma getOffsetForUtc_fresh (tz : TimezoneDefinition) (t S E : Nat)
    (hm0 : ¬ tz.dst_start_month = 0)
    (hS : computeDstStartMs (yearFromMs t) tz = some S)
    (hE : computeDstEndMs (yearFromMs t) tz = some E)
    (hPS : ∃ v, computeDstStartMs (yearFromMs t - 1) tz = some v)
    (hPE : ∃ v, computeDstEndMs (yearFromMs t - 1) tz = some v)
    (hNS : ∃ v, computeDstStartMs (yearFromMs t + 1) tz = some v)
    (hNE : ∃ v, computeDstEndMs (yearFromMs t + 1) tz = some v) :
    (getOffsetForUtc t tz ⟨0, 0, 0⟩).map Prod.fst = some
      (if S < E then
        if t < S then tz.offset_min
        else if t < E then tz.offset_dst_min
        else tz.offset_min
      else
        if t < E then tz.offset_dst_min
        else if t < S then tz.offset_min
        else tz.offset_dst_min) := by
  obtain ⟨PS, hPS⟩ := hPS
  obtain ⟨PE, hPE⟩ := hPE
  obtain ⟨NS, hNS⟩ := hNS
  obtain ⟨NE, hNE⟩ := hNE
  simp only [getOffsetForUtc]
  rw [if_neg hm0, hitCache_empty]
  simp only [Bool.false_eq_true, if_false]
  rw [hS, hE]
  dsimp only
  by_cases h1 : S < E
  · rw [if_pos h1, if_pos h1]
    by_cases h2 : t < S
    · rw [if_pos h2, if_pos h2, hPE]; simp
    · rw [if_neg h2, if_neg h2]
      by_cases h3 : t < E
      · rw [if_pos h3, if_pos h3]; simp
      · rw [if_neg h3, if_neg h3, hNS]; simp
  · rw [if_neg h1, if_neg h1]
    by_cases h2 : t < E
    · rw [if_pos h2, if_pos h2, hPS]; simp
    · rw [if_neg h2, if_neg h2]
      by_cases h3 : t < S
      · rw [if_pos h3, if_pos h3]; simp
      · rw [if_neg h3, if_neg h3, hNE]; simp

lemma utcToLocal_eval (tz : TimezoneDefinition) (t : Nat) (o : Int)
    (hm0 : ¬ tz.dst_start_month = 0)
    (h : (getOffsetForUtc t tz ⟨0, 0, 0⟩).map Prod.fst = some o) :
    utcToLocal t tz = some (wrap64 ((t : Int) + o * 60000)) := by
  unfold utcToLocal
  rw [if_neg hm0]
  rw [Option.map_eq_some'] at h
  obtain ⟨p, hp, hpe⟩ := h
  rw [hp]
  simp only [Option.map_some']
  rw [hpe]

lemma localToUtc_eval (tz : TimezoneDefinition) (l : Nat) (o : Int)
    (hm0 : ¬ tz.dst_start_month = 0)
    (h : (getOffsetForLocal l tz ⟨0, 0, 0⟩).map Prod.fst = some o) :
    localToUtc l tz = some (wrap64 ((l : Int) - o * 60000)) := by
  unfold localToUtc
  rw [if_neg hm0]
  rw [Option.map_eq_some'] at h
  obtain ⟨p, hp, hpe⟩ := h
  rw [hp]
  simp only [Option.map_some']
  rw [hpe]

end TZ

namespace TZ

lemma getOffsetForLocal_fresh (tz : TimezoneDefinition) (l A S' E' : Nat)
    (hm0 : ¬ tz.dst_start_month = 0)
    (hA : A = wrap64 ((l : Int) - tz.offset_min * 60000))
    (hS' : computeDstStartMs (yearFromMs A) tz = some S')
    (hE' : computeDstEndMs (yearFromMs A) tz = some E')
    (hPS : ∃ v, computeDstStartMs (yearFromMs A - 1) tz = some v)
    (hPE : ∃ v, computeDstEndMs (yearFromMs A - 1) tz = some v)
    (hNS : ∃ v, computeDstStartMs (yearFromMs A + 1) tz = some v)
    (hNE : ∃ v, computeDstEndMs (yearFromMs A + 1) tz = some v) :
    (getOffsetForLocal l tz ⟨0, 0, 0⟩).map Prod.fst = some
      (if S' < E' then
        if wrap64 ((S' : Int) + tz.offset_min * 60000) ≤ l ∧
            l < wrap64 ((E' : Int) + tz.offset_dst_min * 60000) then tz.offset_dst_min
        else tz.offset_min
      else
        if wrap64 ((S' : Int) + tz.offset_min * 60000) ≤ l ∨
            l < wrap64 ((E' : Int) + tz.offset_dst_min * 60000) then tz.offset_dst_min
        else tz.offset_min) := by
  obtain ⟨PS, hPS⟩ := hPS
  obtain ⟨PE, hPE⟩ := hPE
  obtain ⟨NS, hNS⟩ := hNS
  obtain ⟨NE, hNE⟩ := hNE
  simp only [getOffsetForLocal]
  rw [if_neg hm0, hitCache_empty]
  simp only [Bool.false_eq_true, if_false]
  rw [← hA, hS', hE']
  dsimp only
  by_cases h1 : S' < E'
  · simp only [if_pos h1]
    by_cases h2 : A < S'
    · simp only [if_pos h2]
      rw [hPE]
      simp only [Option.map_some']
      rw [apply_ite Prod.fst]
    · simp only [if_neg h2]
      by_cases h3 : A < E'
      · simp only [if_pos h3]
        simp only [Option.map_some']
        rw [apply_ite Prod.fst]
      · simp only [if_neg h3]
        rw [hNS]
        simp only [Option.map_some']
        rw [apply_ite Prod.fst]
  · simp only [if_neg h1]
    by_cases h2 : A < E'
    · simp only [if_pos h2]
      rw [hPS]
      simp only [Option.map_some']
      rw [apply_ite Prod.fst]
    · simp only [if_neg h2]
      by_cases h3 : A < S'
      · simp only [if_pos h3]
        simp only [Option.map_some']
        rw [apply_ite Prod.fst]
      · simp only [if_neg h3]
        rw [hNE]
        simp only [Option.map_some']
        rw [apply_ite Prod.fst]

end TZ

namespace TZ

lemma roundtrip_finish (tz : TimezoneDefinition) (t : Nat) (o : Int)
    (hm0 : ¬ tz.dst_start_month = 0)
    (h1 : (getOffsetForUtc t tz ⟨0, 0, 0⟩).map Prod.fst = some o)
    (h2 : (getOffsetForLocal (wrap64 ((t : Int) + o * 60000)) tz ⟨0, 0, 0⟩).map Prod.fst =
      some o)
    (hb1 : 0 ≤ (t : Int) + o * 60000)
    (hb2 : (t : Int) + o * 60000 < 18446744073709551616)
    (ht64 : t < 18446744073709551616) :
    (utcToLocal t tz).bind (fun l => localToUtc l tz) = some t := by
  have hl := utcToLocal_eval tz t o hm0 h1
  have hl2 := localToUtc_eval tz _ o hm0 h2
  rw [hl, Option.some_bind, hl2]
  congr 1
  have hlc := wrap64_coe ((t : Int) + o * 60000) hb1 hb2
  have harg : ((wrap64 ((t : Int) + o * 60000) : Nat) : Int) - o * 60000 = (t : Int) := by
    rw [hlc]; ring
  rw [harg]
  exact wrap64_natCast t (by omega)

end TZ

namespace TZ

end TZ
